import Mathlib

/-
Verification development for the alphafold2_app job handler
(src/runtime/handler.py).  The Python functions are shallowly embedded as
executable Lean definitions: file system queries become explicit oracles,
paths are strings manipulated through their character lists, raised Python
exceptions become Except results, and side effects that matter to the
claims (subprocess invocation, job output directory removal, background
spawning) are tracked as an explicit effect list.
-/

namespace AlphafoldHandler

/-- ASCII whitespace set of the Python str.strip method. -/
def isPyWhitespace (c : Char) : Bool :=
  c == ' ' || c == '\t' || c == '\n' || c == '\r' || c == '\x0b' || c == '\x0c'

/-- Model of the Python str.strip method: trim whitespace at both ends. -/
def pythonStrip (s : String) : String :=
  String.mk (((s.data.dropWhile isPyWhitespace).reverse.dropWhile isPyWhitespace).reverse)

/-- Split a character list at every occurrence of the separator. -/
def splitOnChar (sep : Char) : List Char → List (List Char)
  | [] => [[]]
  | c :: rest =>
    match splitOnChar sep rest with
    | [] => [[c]]
    | h :: t => if c == sep then [] :: h :: t else (c :: h) :: t

/-- Non-empty slash-separated components of a path string. -/
def pathComponents (s : String) : List (List Char) :=
  (splitOnChar '/' s.data).filter (fun comp => !comp.isEmpty)

/-- Lexical model of Path.resolve on components: drop dot components and let a
dot-dot component remove the preceding component (at the root it is a no-op,
as for POSIX resolution).  Symbolic links are not modelled. -/
def normalizeComponents (cs : List (List Char)) : List (List Char) :=
  cs.foldl (fun acc comp =>
    if comp = ['.'] then acc
    else if comp = ['.', '.'] then acc.dropLast
    else acc ++ [comp]) []

/-- Render absolute path components back to the character form of str(path). -/
def renderAbs (cs : List (List Char)) : List Char :=
  if cs.isEmpty then ['/']
  else cs.foldl (fun acc comp => acc ++ '/' :: comp) []

/-- Boolean prefix test on lists; used for the Python str.startswith check. -/
def isStartOf {α : Type} [BEq α] : List α → List α → Bool
  | [], _ => true
  | _ :: _, [] => false
  | a :: as, b :: bs => a == b && isStartOf as bs

/-- Resolved absolute form of destination slash member name, as computed by
(destination / member.name).resolve() in the source: an absolute member name
replaces the destination, a relative one is appended before resolution. -/
def member_resolved (destination name : String) : List Char :=
  if name.data.head? = some '/' then
    renderAbs (normalizeComponents (pathComponents name))
  else
    renderAbs (normalizeComponents (pathComponents destination ++ pathComponents name))

/-- destination.resolve() from the source. -/
def dest_root (destination : String) : List Char :=
  renderAbs (normalizeComponents (pathComponents destination))

/-- Model of _safe_extract_tar_bytes: scan every member first and raise when
the rendered resolved member path does not start with the rendered resolved
destination (a plain string prefix test in the source); only afterwards
extract all members.  The ok payload lists the written absolute paths.
The tar byte stream itself is abstracted as its parsed member name list, and
the dead FileNotFoundError fallback of the source (Path.resolve is
non-strict) is not modelled. -/
def safe_extract_tar_bytes (memberNames : List String) (destination : String) :
    Except String (List String) :=
  match memberNames.find?
      (fun m => !(isStartOf (dest_root destination) (member_resolved destination m))) with
  | some _ => Except.error "Uploaded archive contains unsafe paths."
  | none => Except.ok (memberNames.map (fun m => String.mk (member_resolved destination m)))

/-- Modelled from the spec: a path is a descendant of the destination exactly
when the resolved destination components are a prefix of its resolved
components.  This definition follows the spec wording of the traversal check
and exists only to state claim C1 against the source behaviour. -/
def descendant_of_destination (destination target : String) : Bool :=
  isStartOf (normalizeComponents (pathComponents destination))
    (normalizeComponents (pathComponents target))

/-- Claim C1: the claim states that any tar entry resolving outside the
destination aborts the extraction and nothing is written.  The source check
is a raw string prefix test, so a member named ../devil under destination
/tmp/d resolves to /tmp/devil, passes the check because the string /tmp/devil
starts with /tmp/d, and is extracted outside the destination: extraction
succeeds and writes a non-descendant path. -/
theorem C1_safe_extract_misses_sibling_escape :
    safe_extract_tar_bytes ["../devil"] "/tmp/d" = Except.ok ["/tmp/devil"] ∧
    descendant_of_destination "/tmp/d" "/tmp/devil" = false := by
  constructor
  · rfl
  · rfl

/-- Model of _write_fasta_from_sequence: the written file content is the fixed
placeholder header line followed by the stripped sequence and a newline, in
the order of the two write calls of the source. -/
def write_fasta_from_sequence (sequence : String) : String :=
  ">query\n" ++ (pythonStrip sequence ++ "\n")

/-- Drop everything up to and including the first newline of a file content. -/
def dropHeaderLine : List Char → List Char
  | [] => []
  | c :: rest => if c = '\n' then rest else dropHeaderLine rest

/-- Remove one trailing newline character, if present. -/
def dropTrailingNewline (cs : List Char) : List Char :=
  match cs.getLast? with
  | some c => if c = '\n' then cs.dropLast else cs
  | none => cs

/-- Read back the body of a FASTA file: the content after the single header
line, without the final newline. -/
def fasta_body (content : String) : String :=
  String.mk (dropTrailingNewline (dropHeaderLine content.data))

theorem dropHeaderLine_cons_ne (c : Char) (t : List Char) (h : c ≠ '\n') :
    dropHeaderLine (c :: t) = dropHeaderLine t := by
  simp [dropHeaderLine, h]

theorem dropTrailingNewline_concat (xs : List Char) :
    dropTrailingNewline (xs ++ ['\n']) = xs := by
  simp [dropTrailingNewline, List.getLast?_concat, List.dropLast_concat]

/-- Claim C6: for every non-empty sequence string, the body of the written
FASTA file (content after the header line, without the final newline) equals
the whitespace-trimmed input sequence. -/
theorem C6_sequence_roundtrip (s : String) (h : s ≠ "") :
    fasta_body (write_fasta_from_sequence s) = pythonStrip s := by
  have hdata : (write_fasta_from_sequence s).data
      = ['>', 'q', 'u', 'e', 'r', 'y', '\n'] ++ ((pythonStrip s).data ++ ['\n']) := rfl
  unfold fasta_body
  rw [hdata]
  rw [show (['>', 'q', 'u', 'e', 'r', 'y', '\n'] ++ ((pythonStrip s).data ++ ['\n']))
      = '>' :: 'q' :: 'u' :: 'e' :: 'r' :: 'y' :: '\n' :: ((pythonStrip s).data ++ ['\n'])
      from rfl]
  rw [dropHeaderLine_cons_ne '>' _ (by decide)]
  rw [dropHeaderLine_cons_ne 'q' _ (by decide)]
  rw [dropHeaderLine_cons_ne 'u' _ (by decide)]
  rw [dropHeaderLine_cons_ne 'e' _ (by decide)]
  rw [dropHeaderLine_cons_ne 'r' _ (by decide)]
  rw [dropHeaderLine_cons_ne 'y' _ (by decide)]
  rw [show dropHeaderLine ('\n' :: ((pythonStrip s).data ++ ['\n']))
      = (pythonStrip s).data ++ ['\n'] from by simp [dropHeaderLine]]
  rw [dropTrailingNewline_concat]

/-- Witness for claim C6 at the concrete sequence with surrounding blanks. -/
theorem C6_sequence_roundtrip_witness :
    fasta_body (write_fasta_from_sequence " MKTAY \n") = "MKTAY" :=
  (C6_sequence_roundtrip " MKTAY \n" (by decide)).trans (by decide)

/-- Code-point comparison of characters, as Python string comparison uses. -/
def charLeNat (a b : Char) : Bool := decide (a.val.toNat ≤ b.val.toNat)

/-- Strict code-point comparison of characters. -/
def charLtNat (a b : Char) : Bool := decide (a.val.toNat < b.val.toNat)

/-- Lexicographic string order on character lists, as the Python sorted
builtin compares strings (and PurePath objects, which compare by their
rendered string). -/
def lexLe : List Char → List Char → Bool
  | [], _ => true
  | _ :: _, [] => false
  | a :: as, b :: bs => if a == b then lexLe as bs else charLtNat a b

/-- Comparison wrapper on strings. -/
def lexLeStr (a b : String) : Bool := lexLe a.data b.data

/-- Stable insertion used by the sorting model. -/
def insertSorted (x : String) : List String → List String
  | [] => [x]
  | y :: ys => if lexLeStr x y then x :: y :: ys else y :: insertSorted x ys

/-- Stable ascending sort modelling the Python sorted builtin on strings. -/
def sortStrings : List String → List String
  | [] => []
  | x :: xs => insertSorted x (sortStrings xs)

/-- Base name of a path string (the Path.name property of the source). -/
def pathName (p : String) : String :=
  String.mk ((splitOnChar '/' p.data).getLastD p.data)

/-- Key update or append on an association list, modelling assignment into a
Python dict comprehension where a repeated key keeps only the last value. -/
def dictInsert (d : List (String × String)) (k v : String) : List (String × String) :=
  if d.any (fun kv => kv.1 == k) then
    d.map (fun kv => if kv.1 == k then (k, v) else kv)
  else d ++ [(k, v)]

/-- The lookup dict of _materialize_uploaded_inputs: base name to path, built
over the found files in traversal order, later duplicates overwriting. -/
def buildLookup (files : List String) : List (String × String) :=
  files.foldl (fun d p => dictInsert d (pathName p) p) []

/-- The loop over file_names of the source: pop each declared name from the
lookup dict and append the popped path to the ordered output. -/
def pop_names : List String → List String → List (String × String) →
    List String × List (String × String)
  | [], ordered, d => (ordered, d)
  | n :: ns, ordered, d =>
    match d.find? (fun kv => kv.1 == n) with
    | some kv => pop_names ns (ordered ++ [kv.2]) (d.filter (fun kv2 => !(kv2.1 == n)))
    | none => pop_names ns ordered d

/-- Ordering step of the kind fasta_paths branch of _materialize_uploaded_inputs
(source lines 154 to 165): with a non-empty file_names list, pop declared
names from the name-keyed dict and append the sorted remaining dict values;
otherwise sort all found files. -/
def order_uploaded_fasta_paths (fasta_files : List String) (file_names : List String) :
    List String :=
  if file_names = [] then sortStrings fasta_files
  else
    let st := pop_names file_names [] (buildLookup fasta_files)
    st.1 ++ sortStrings (st.2.map Prod.snd)

/-- Modelled from the spec wording of claim C7, for the refinement
comparison: files named in file_names come first in that order (each found
file used at most once), and all remaining found files follow in sorted
order. -/
def spec_pick : List String → List String × List String → List String × List String
  | [], st => st
  | n :: ns, (ordered, remaining) =>
    match remaining.find? (fun p => pathName p == n) with
    | some p => spec_pick ns (ordered ++ [p], remaining.erase p)
    | none => spec_pick ns (ordered, remaining)

/-- Modelled from the spec wording of claim C7: the declared-first ordering
over all recursively found FASTA files. -/
def spec_declared_first_order (fasta_files : List String) (file_names : List String) :
    List String :=
  let st := spec_pick file_names ([], fasta_files)
  st.1 ++ sortStrings st.2

/-- Counterexample to claim C7 as stated: two found files sharing the base
name x.fasta collapse inside the name-keyed dict, so one of them disappears
from the rewritten list instead of being appended with the remaining files. -/
theorem C7_duplicate_basename_dropped :
    order_uploaded_fasta_paths ["/w/a/x.fasta", "/w/b/x.fasta"] ["y.fasta"]
      = ["/w/b/x.fasta"] ∧
    spec_declared_first_order ["/w/a/x.fasta", "/w/b/x.fasta"] ["y.fasta"]
      = ["/w/a/x.fasta", "/w/b/x.fasta"] ∧
    order_uploaded_fasta_paths ["/w/a/x.fasta", "/w/b/x.fasta"] ["y.fasta"]
      ≠ spec_declared_first_order ["/w/a/x.fasta", "/w/b/x.fasta"] ["y.fasta"] := by
  refine ⟨rfl, rfl, ?_⟩
  decide

/-- Pairing a found file with its dict key. -/
def namePair (p : String) : String × String := (pathName p, p)

theorem find?_map_namePair (n : String) (l : List String) :
    (l.map namePair).find? (fun kv => kv.1 == n)
      = (l.find? (fun p => pathName p == n)).map namePair := by
  induction l with
  | nil => rfl
  | cons h t ih =>
    by_cases hh : (pathName h == n) = true
    · simp [List.find?, namePair, hh]
    · simp only [Bool.not_eq_true] at hh
      simp [List.find?, namePair, hh, ih]

theorem filter_map_namePair (n : String) (l : List String) :
    (l.map namePair).filter (fun kv => !(kv.1 == n))
      = (l.filter (fun p => !(pathName p == n))).map namePair := by
  induction l with
  | nil => rfl
  | cons h t ih =>
    by_cases hh : (pathName h == n) = true
    · simp [List.filter, namePair, hh, ih]
    · simp only [Bool.not_eq_true] at hh
      simp [List.filter, namePair, hh, ih]

theorem filter_ne_eq_erase (n : String) (l : List String) (q : String)
    (hnd : (l.map pathName).Nodup)
    (hf : l.find? (fun p => pathName p == n) = some q) :
    l.filter (fun p => !(pathName p == n)) = l.erase q := by
  induction l with
  | nil => simp [List.find?] at hf
  | cons h t ih =>
    by_cases hh : (pathName h == n) = true
    · have hq : q = h := by
        simp [List.find?, hh] at hf
        exact hf.symm
      subst hq
      have hn : n = pathName q := (beq_iff_eq.mp hh).symm
      have hnotin : pathName q ∉ t.map pathName := by
        simp only [List.map_cons, List.nodup_cons] at hnd
        exact hnd.1
      have hall : ∀ p ∈ t, (!(pathName p == n)) = true := by
        intro p hp
        have : pathName p ≠ n := by
          intro hc
          exact hnotin (by
            rw [← hn, ← hc]
            exact List.mem_map_of_mem pathName hp)
        simp [this]
      rw [List.filter_cons, if_neg (by simp [hh]), List.erase_cons_head]
      exact List.filter_eq_self.mpr hall
    · simp only [Bool.not_eq_true] at hh
      have hf2 : t.find? (fun p => pathName p == n) = some q := by
        simpa [List.find?, hh] using hf
      have hqt : q ∈ t := List.mem_of_find?_eq_some hf2
      have hqn0 := List.find?_some hf2
      have hqn : (pathName q == n) = true := hqn0
      have hne : h ≠ q := by
        intro hc
        rw [hc] at hh
        rw [hqn] at hh
        exact absurd hh (by simp)
      have hnd2 : (t.map pathName).Nodup := by
        simp only [List.map_cons, List.nodup_cons] at hnd
        exact hnd.2
      rw [List.filter_cons, if_pos (by simp [hh]), List.erase_cons_tail]
      · rw [ih hnd2 hf2]
      · simp [hne]

theorem pop_names_map_namePair (ns : List String) (ordered : List String)
    (remaining : List String) (hnd : (remaining.map pathName).Nodup) :
    pop_names ns ordered (remaining.map namePair)
      = ((spec_pick ns (ordered, remaining)).1,
         (spec_pick ns (ordered, remaining)).2.map namePair) := by
  induction ns generalizing ordered remaining with
  | nil => rfl
  | cons n ns ih =>
    rw [pop_names, spec_pick, find?_map_namePair]
    cases hf : remaining.find? (fun p => pathName p == n) with
    | none =>
      simp only [Option.map_none]
      exact ih ordered remaining hnd
    | some q =>
      simp only [Option.map_some]
      rw [filter_map_namePair, filter_ne_eq_erase n remaining q hnd hf]
      have hnd2 : ((remaining.erase q).map pathName).Nodup :=
        ((remaining.erase_sublist q).map pathName).nodup hnd
      exact ih (ordered ++ [q]) (remaining.erase q) hnd2

theorem buildLookup_of_nodup_aux (files : List String) :
    ∀ d : List (String × String),
      ((d.map Prod.fst) ++ files.map pathName).Nodup →
      files.foldl (fun d p => dictInsert d (pathName p) p) d = d ++ files.map namePair := by
  induction files with
  | nil => intro d _; simp
  | cons f fs ih =>
    intro d hnd
    have hnotin : pathName f ∉ d.map Prod.fst := by
      rw [List.nodup_append] at hnd
      intro hc
      exact hnd.2.2 hc (by simp)
    have hany : (d.any (fun kv => kv.1 == pathName f)) = false := by
      rw [List.any_eq_false]
      intro kv hkv
      have : kv.1 ≠ pathName f := by
        intro hc
        exact hnotin (hc ▸ List.mem_map_of_mem Prod.fst hkv)
      simp [this]
    have hins : dictInsert d (pathName f) f = d ++ [namePair f] := by
      rw [dictInsert, if_neg (by simp [hany])]
      rfl
    rw [List.foldl_cons, hins]
    have hnd2 : (((d ++ [namePair f]).map Prod.fst) ++ fs.map pathName).Nodup := by
      have : ((d ++ [namePair f]).map Prod.fst) ++ fs.map pathName
          = (d.map Prod.fst) ++ (pathName f :: fs.map pathName) := by
        simp [namePair]
      rw [this]
      simpa using hnd
    rw [ih (d ++ [namePair f]) hnd2]
    simp

theorem buildLookup_of_nodup (files : List String)
    (hnd : (files.map pathName).Nodup) :
    buildLookup files = files.map namePair := by
  have := buildLookup_of_nodup_aux files [] (by simpa using hnd)
  simpa [buildLookup] using this

/-- Claim C7 amended: when the recursively found FASTA files have pairwise
distinct base names, the rewrite order of the source equals the spec order:
files named by file_names first, in that order, then the remaining found
files in sorted order.  (The counterexample forces the distinct-names
hypothesis: duplicated base names collapse in the name-keyed dict.) -/
theorem C7_order_matches_spec_on_distinct_names (fasta_files file_names : List String)
    (hnd : (fasta_files.map pathName).Nodup) :
    order_uploaded_fasta_paths fasta_files file_names
      = spec_declared_first_order fasta_files file_names := by
  by_cases hfn : file_names = []
  · subst hfn
    rfl
  · rw [order_uploaded_fasta_paths, if_neg hfn]
    rw [spec_declared_first_order]
    rw [buildLookup_of_nodup fasta_files hnd]
    rw [pop_names_map_namePair file_names [] fasta_files hnd]
    show (spec_pick file_names ([], fasta_files)).1
        ++ sortStrings (((spec_pick file_names ([], fasta_files)).2.map namePair).map Prod.snd)
      = _
    rw [List.map_map]
    have hcomp : Prod.snd ∘ namePair = id := rfl
    rw [hcomp, List.map_id]

/-- Witness for the amended claim C7 at two files with distinct base names:
the declared file comes first, the remaining one follows sorted. -/
theorem C7_order_matches_spec_witness :
    ((["/w/b.fasta", "/w/a.fasta"].map pathName).Nodup) ∧
    order_uploaded_fasta_paths ["/w/b.fasta", "/w/a.fasta"] ["b.fasta"]
      = spec_declared_first_order ["/w/b.fasta", "/w/a.fasta"] ["b.fasta"] ∧
    order_uploaded_fasta_paths ["/w/b.fasta", "/w/a.fasta"] ["b.fasta"]
      = ["/w/b.fasta", "/w/a.fasta"] :=
  ⟨by decide,
   C7_order_matches_spec_on_distinct_names ["/w/b.fasta", "/w/a.fasta"] ["b.fasta"] (by decide),
   by decide⟩

/-- Lowercase mapping for ASCII letters (Char.toLower of the suffix check). -/
def lowerChar (c : Char) : Char := c.toLower

/-- Suffix (extension including the dot) of a base name, following the
PurePath.suffix rule: the text from the last dot on, empty when there is no
dot, when the only dot is the leading character, or when the dot is last. -/
def pathSuffix (base : List Char) : List Char :=
  if (base.reverse.takeWhile (fun c => !(c == '.'))).length = base.length then []
  else if (base.reverse.takeWhile (fun c => !(c == '.'))).length + 1 = base.length then []
  else if (base.reverse.takeWhile (fun c => !(c == '.'))).length = 0 then []
  else '.' :: (base.reverse.takeWhile (fun c => !(c == '.'))).reverse

/-- The fixed recognized FASTA suffix set of the source. -/
def fastaExtensions : List (List Char) :=
  [".fa".data, ".fasta".data, ".faa".data, ".fas".data]

/-- Model of _is_fasta_file: lowercased suffix of the base name belongs to the
recognized set. -/
def is_fasta_file (p : String) : Bool :=
  fastaExtensions.contains ((pathSuffix (pathName p).data).map lowerChar)

/-- Python exception values raised by the handler pipeline. -/
inductive PyError where
  | valueError (msg : String)
  | fileNotFoundError (msg : String)
  | notADirectoryError (msg : String)
  | fetchError (url : String)
deriving DecidableEq

/-- One parsed tar member: its name (a relative or absolute path inside the
archive) and whether it is a regular file. -/
structure TarEntry where
  name : String
  isFile : Bool
deriving DecidableEq

/-- The base64 field of an uploaded archive: absent or empty, undecodable, or
decoding to a parsed tar member list. -/
inductive B64 where
  | missing
  | invalid
  | valid (entries : List TarEntry)
deriving DecidableEq

/-- The input_archive object of a request. -/
structure Upload where
  kind : Option String
  base64 : B64
  root : Option String
  file_names : Option (List String)
deriving DecidableEq

/-- The input object of a job request.  Field presence in the Python dict is
modelled with Option; values are assumed well typed (isinstance failures are
outside the model). -/
structure InputPayload where
  action : Option String
  sequence : Option String
  sequence_list : Option (List String)
  fasta_path : Option String
  fasta_paths : Option (List String)
  fasta_dir : Option String
  fasta_url : Option String
  input_archive : Option Upload
  model_preset : Option String
  db_preset : Option String
  max_template_date : Option String
  alphafold_extra_flags : Option String
  output_dir : Option String
  preset : Option String
  allow_download : Option Bool
  tar_options : Option String
  log_path : Option String
deriving DecidableEq

/-- The request payload with no field set. -/
def emptyPayload : InputPayload :=
  ⟨none, none, none, none, none, none, none, none, none,
   none, none, none, none, none, none, none, none⟩

/-- File system oracle used by the materialization functions: existence
queries, directory listings (base names) and the body fetched for a URL
(none models a network failure). -/
structure FS where
  isFile : String → Bool
  isDir : String → Bool
  listDir : String → List String
  fetch : String → Option String

/-- Python truthiness of an optional string field. -/
def truthyStr : Option String → Bool
  | none => false
  | some s => s != ""

/-- The x or y idiom on an optional string against a default. -/
def pyOrStr (a : Option String) (b : String) : String :=
  match a with
  | some s => if s != "" then s else b
  | none => b

/-- The found FASTA files of an uploaded fasta_paths archive: every file
member with a recognized suffix, addressed under the extraction directory.
The rglob traversal order is modelled as the member order of the archive. -/
def uploaded_fasta_files (entries : List TarEntry) (extractDir : String) : List String :=
  (entries.filter (fun en => en.isFile && is_fasta_file en.name)).map
    (fun en => extractDir ++ "/" ++ en.name)

/-- Top level entry names of the extraction directory, derived from the first
path component of each member name. -/
def top_level_entries (entries : List TarEntry) : List String :=
  (entries.map (fun en => String.mk ((pathComponents en.name).headD []))).dedup

/-- Model of _materialize_uploaded_inputs: decode the uploaded archive,
extract it safely, and rewrite the request to fasta_dir or fasta_paths.
Returns the rewritten request; raised ValueError values become Except
errors.  Directory existence after extraction is derived from the member
names of the archive. -/
def materialize_uploaded_inputs (payload : InputPayload) (workingDir : String) :
    Except PyError InputPayload :=
  match payload.input_archive with
  | none => Except.ok payload
  | some upload =>
    match upload.base64 with
    | B64.missing => Except.error (PyError.valueError "input_archive missing base64 payload")
    | B64.invalid => Except.error (PyError.valueError "Failed to decode base64 input archive")
    | B64.valid entries =>
      match safe_extract_tar_bytes (entries.map TarEntry.name) (workingDir ++ "/uploaded_inputs") with
      | Except.error e => Except.error (PyError.valueError e)
      | Except.ok _ =>
        let extractDir := workingDir ++ "/uploaded_inputs"
        match upload.kind with
        | some k =>
          if k = "fasta_dir" then
            let tops := top_level_entries entries
            let candidate := match upload.root with
              | some r =>
                if r != "" then
                  if tops.contains r then some (extractDir ++ "/" ++ r)
                  else if (sortStrings tops).length = 1 then
                    some (extractDir ++ "/" ++ (sortStrings tops).headD "")
                  else none
                else some extractDir
              | none => some extractDir
            match candidate with
            | some dir =>
              Except.ok { payload with fasta_dir := some dir, input_archive := none }
            | none =>
              Except.error (PyError.valueError
                "Uploaded archive did not contain the expected FASTA directory")
          else if k = "fasta_paths" then
            let fastaFiles := uploaded_fasta_files entries extractDir
            if fastaFiles = [] then
              Except.error (PyError.valueError
                "Uploaded FASTA archive did not contain any FASTA files")
            else
              Except.ok { payload with
                fasta_paths := some (order_uploaded_fasta_paths fastaFiles
                  ((upload.file_names).getD []))
                input_archive := none }
          else Except.error (PyError.valueError ("Unknown uploaded input kind: " ++ k))
        | none => Except.error (PyError.valueError "Unknown uploaded input kind: None")

/-- Model of _copy_fasta_files: count the source entries that are regular
files with a recognized suffix; zero qualifying files raise, otherwise the
destination directory is returned. -/
def copy_fasta_files (fs : FS) (source_files : List String) (destination_dir : String) :
    Except PyError String :=
  let copied := source_files.filter (fun src => fs.isFile src && is_fasta_file src)
  if copied.length = 0 then
    Except.error (PyError.valueError ("No FASTA files found to copy into " ++ destination_dir))
  else Except.ok destination_dir

/-- Model of _prepare_fasta_inputs: dispatch on the first present input field
in source order and produce the path of the staged FASTA input.  Path
expansion of a leading tilde is modelled as the identity. -/
def prepare_fasta_inputs (fs : FS) (payload : InputPayload) (workingDir : String) :
    Except PyError String :=
  match payload.fasta_path with
  | some fp =>
    if fs.isFile fp then Except.ok (workingDir ++ "/" ++ pathName fp)
    else Except.error (PyError.fileNotFoundError ("FASTA path not found: " ++ fp))
  | none =>
  match payload.fasta_paths with
  | some paths =>
    if paths = [] then
      Except.error (PyError.valueError "fasta_paths must be a non-empty list of file paths.")
    else
      let missing := paths.filter (fun p => !(fs.isFile p))
      if missing = [] then copy_fasta_files fs paths (workingDir ++ "/batch_fasta")
      else Except.error (PyError.fileNotFoundError
        ("FASTA paths not found: " ++ String.intercalate ", " missing))
  | none =>
  match payload.fasta_dir with
  | some d =>
    if fs.isDir d then
      copy_fasta_files fs ((sortStrings (fs.listDir d)).map (fun n => d ++ "/" ++ n))
        (workingDir ++ "/" ++ pathName d)
    else Except.error (PyError.notADirectoryError ("FASTA directory not found: " ++ d))
  | none =>
  match payload.sequence_list with
  | some seqs =>
    if seqs = [] then
      Except.error (PyError.valueError "sequence_list must be a non-empty list of sequences.")
    else if seqs.any (fun s => pythonStrip s == "") then
      Except.error (PyError.valueError "Each sequence in sequence_list must be a non-empty string.")
    else Except.ok (workingDir ++ "/batch_sequences")
  | none =>
  match payload.sequence with
  | some s =>
    if s = "" then Except.error (PyError.valueError "Sequence must be a non-empty string.")
    else Except.ok (workingDir ++ "/input.fasta")
  | none =>
  match payload.fasta_url with
  | some url =>
    match fs.fetch url with
    | some _ => Except.ok (workingDir ++ "/input.fasta")
    | none => Except.error (PyError.fetchError url)
  | none =>
    Except.error (PyError.valueError
      "Input must include one of sequence, sequence_list, fasta_path, fasta_paths, fasta_dir, or fasta_url.")

/-- Fuel-driven glob component matcher supporting the star and question mark
wildcards (character classes, absent from the default pattern set, are
treated literally).  The fuel argument only drives structural recursion; it
is always supplied large enough by fnmatch below. -/
def fnmatchFuel : Nat → List Char → List Char → Bool
  | 0, _, _ => false
  | _ + 1, [], cs => cs.isEmpty
  | f + 1, '*' :: ps, cs =>
    fnmatchFuel f ps cs ||
      (match cs with
       | [] => false
       | _ :: cs2 => fnmatchFuel f ('*' :: ps) cs2)
  | f + 1, '?' :: ps, cs =>
    (match cs with
     | [] => false
     | _ :: cs2 => fnmatchFuel f ps cs2)
  | f + 1, p :: ps, cs =>
    (match cs with
     | [] => false
     | c :: cs2 => p == c && fnmatchFuel f ps cs2)

/-- Single component glob match. -/
def fnmatch (ps cs : List Char) : Bool :=
  fnmatchFuel (ps.length + cs.length + 1) ps cs

/-- Model of Path.glob over a subtree given as relative component paths: the
pattern is split on slashes and must match the path componentwise. -/
def globMatch (pattern : String) (rel : List (List Char)) : Bool :=
  let pcs := splitOnChar '/' pattern.data
  pcs.length == rel.length && (List.zip pcs rel).all (fun pc => fnmatch pc.1 pc.2)

/-- The default selection pattern allowlist of the source. -/
def DEFAULT_ARCHIVE_PATTERNS : List String :=
  ["ranked_*.pdb",
   "relaxed_model_*_pred_0.pdb",
   "ranking_debug.json",
   "relax_metrics.json",
   "timings.json",
   "plddt.*",
   "pae*"]

/-- Pattern list derivation from the ARCHIVE_PATTERNS override: split the
override on commas, strip each piece, drop empties; otherwise the default
list. -/
def archive_patterns (overrideStr : Option String) : List String :=
  match overrideStr with
  | some s =>
    if s != "" then
      ((splitOnChar ',' s.data).map (fun piece => pythonStrip (String.mk piece))).filter
        (fun piece => piece != "")
    else DEFAULT_ARCHIVE_PATTERNS
  | none => DEFAULT_ARCHIVE_PATTERNS

/-- One file inside an output tree: relative path components and a size. -/
structure OutFile where
  path : List (List Char)
  size : Nat
deriving DecidableEq

/-- The output directory of a finished job: its base name, its immediate
subdirectories with the files below each, and the files directly at the
root. -/
structure OutputTree where
  rootName : String
  subdirs : List (String × List OutFile)
  rootFiles : List OutFile
deriving DecidableEq

/-- Model of _archive_selected_outputs over the relative file paths of one
target directory: collect pattern matches in pattern order, deduplicated by
relative path, and return none when nothing matched.  The compressed archive
bytes are abstracted as the list of matched relative paths (base64 encoding
is injective, so equality of payloads is preserved). -/
def archive_selected_outputs (patterns : List String) (files : List (List (List Char))) :
    Option (List (List (List Char))) :=
  let matched := patterns.foldl (fun acc pattern =>
    files.foldl (fun acc2 f =>
      if globMatch pattern f && !(acc2.contains f) then acc2 ++ [f] else acc2) acc) []
  if matched = [] then none else some matched

/-- One archive manifest entry: the archive name and its abstracted payload. -/
structure ArchiveEntry where
  name : String
  base64 : List (List (List Char))
deriving DecidableEq

/-- Insertion step for sorting subdirectories by name. -/
def insertSortedByName (x : String × List OutFile) :
    List (String × List OutFile) → List (String × List OutFile)
  | [] => [x]
  | y :: ys => if lexLeStr x.1 y.1 then x :: y :: ys else y :: insertSortedByName x ys

/-- Sorted iterdir over the subdirectory list. -/
def sortSubdirs : List (String × List OutFile) → List (String × List OutFile)
  | [] => []
  | x :: xs => insertSortedByName x (sortSubdirs xs)

/-- Model of _prepare_archives: the candidates are the sorted immediate
subdirectories, or the output directory itself when it has none; each
candidate with at least one pattern match contributes one named entry. -/
def prepare_archives (patterns : List String) (tree : OutputTree) : List ArchiveEntry :=
  let candidates :=
    if tree.subdirs = [] then [(tree.rootName, tree.rootFiles)]
    else sortSubdirs tree.subdirs
  candidates.foldl (fun acc cand =>
    match archive_selected_outputs patterns (cand.2.map OutFile.path) with
    | some content => acc ++ [{ name := cand.1 ++ ".tar.gz", base64 := content }]
    | none => acc) []

/-- One files list entry of the success result. -/
structure FileEntry where
  name : String
  size : Nat
deriving DecidableEq

/-- The files, archives and archive_base64 portion of the success result. -/
structure CollectedOutputs where
  files : List FileEntry
  archives : Option (List ArchiveEntry)
  archive_base64 : Option (List (List (List Char)))
deriving DecidableEq

/-- Render relative path components with slashes. -/
def renderRel (cs : List (List Char)) : String :=
  String.intercalate "/" (cs.map String.mk)

/-- Environment and oracle record for one handler invocation: the recognized
configuration options, the outcome of the one external computation run, the
output tree it produced, the pid assigned to a spawned background process,
opaque snapshots for the subprocess-driven status payloads, and the state of
the bootstrap file lock (which the handler code never consults). -/
structure Env where
  returnArchive : String
  archivePatterns : Option String
  preserveJobOutput : String
  alphafoldOutputRoot : String
  alphafoldDbPath : String
  dbAutoPreset : Option String
  subprocExit : Nat
  subprocOutput : String
  outputTree : OutputTree
  spawnPid : Nat
  dbSnapshot : String
  stopSnapshot : String
  lockHeld : Bool

/-- Every file of the output tree with its root relative name. -/
def all_output_files (tree : OutputTree) : List FileEntry :=
  (tree.rootFiles.map (fun f => { name := renderRel f.path, size := f.size }))
    ++ tree.subdirs.foldl (fun acc sd =>
        acc ++ sd.2.map (fun f => { name := renderRel (sd.1.data :: f.path), size := f.size })) []

/-- The archives the handler will return: the manifest when the
RETURN_ARCHIVE toggle is 1, nothing otherwise. -/
def returned_archives (env : Env) : List ArchiveEntry :=
  if env.returnArchive = "1" then
    prepare_archives (archive_patterns env.archivePatterns) env.outputTree
  else []

/-- Model of _collect_outputs: the recursive file listing, the archives key
present only when at least one archive exists, and the singular
archive_base64 key present only when exactly one exists. -/
def collect_outputs (env : Env) : CollectedOutputs :=
  let archives := returned_archives env
  { files := all_output_files env.outputTree
    archives := if archives = [] then none else some archives
    archive_base64 := match archives with
      | [a] => some a.base64
      | _ => none }

/-- Effects of one handler invocation that the claims are about. -/
inductive Effect where
  | invokedSubprocess
  | removedJobOutputDir
  | spawnedBackground (pid : Nat)
deriving DecidableEq

/-- Structured results of the handler, one constructor per status shape of
the source: ok action responses, error responses, the started preload
response, and the success response. -/
inductive Response where
  | actionOk (mode : String) (payload : String)
  | errorResp (message : String) (details : Option String)
  | started (mode : String) (preset : String) (pid : Nat) (log : String) (db : String)
  | success (output_dir : String) (output_parent : String) (outputs : CollectedOutputs)
deriving DecidableEq

/-- The preset chosen by the preload action. -/
def preload_preset (env : Env) (payload : InputPayload) : String :=
  pyOrStr payload.preset ((env.dbAutoPreset).getD "reduced_dbs")

/-- The log path chosen by the preload action. -/
def preload_log (env : Env) (payload : InputPayload) : String :=
  pyOrStr payload.log_path
    (env.alphafoldDbPath ++ "/bootstrap_" ++ preload_preset env payload ++ ".log")

/-- The environment overrides passed to the computation subprocess, from the
optional request parameters. -/
def alphafold_env_overrides (payload : InputPayload) : List (String × String) :=
  (match payload.model_preset with | some v => [("MODEL_PRESET", v)] | none => [])
    ++ (match payload.db_preset with | some v => [("DB_PRESET", v)] | none => [])
    ++ (match payload.max_template_date with | some v => [("MAX_TEMPLATE_DATE", v)] | none => [])
    ++ (match payload.alphafold_extra_flags with
        | some v => [("ALPHAFOLD_EXTRA_FLAGS", v)] | none => [])

/-- The action branch of the handler: status and diagnose snapshots, the stop
sweep, the preload spawn, and the unknown action error.  The preload branch
spawns the flock-guarded bootstrap unconditionally; the lock state of the
environment is never consulted. -/
def handle_action (env : Env) (payload : InputPayload) (action : String) :
    Except PyError Response × List Effect :=
  if action = "status" || action = "diagnose" then
    (Except.ok (Response.actionOk action env.dbSnapshot), [])
  else if action = "stop" then
    (Except.ok (Response.actionOk "stop" env.stopSnapshot), [])
  else if action = "preload" then
    (Except.ok (Response.started "preload" (preload_preset env payload) env.spawnPid
      (preload_log env payload) env.dbSnapshot),
     [Effect.spawnedBackground env.spawnPid])
  else
    (Except.ok (Response.errorResp ("Unknown action: " ++ action) none), [])

/-- The compute branch of the handler: materialize uploaded inputs, prepare
the FASTA input, run the computation subprocess, and either report the
captured failure or collect outputs and clean the job output directory
unless preservation is configured.  Errors raised during materialization
propagate; the working directory is a scoped temporary directory whose
removal is not tracked. -/
def handle_compute (env : Env) (fs : FS) (payload : InputPayload)
    (workingDir jobOutputDir : String) : Except PyError Response × List Effect :=
  match materialize_uploaded_inputs payload workingDir with
  | Except.error e => (Except.error e, [])
  | Except.ok payload2 =>
    match prepare_fasta_inputs fs payload2 workingDir with
    | Except.error e => (Except.error e, [])
    | Except.ok _fastaInput =>
      let outputParent := pyOrStr payload2.output_dir env.alphafoldOutputRoot
      if env.subprocExit ≠ 0 then
        (Except.ok (Response.errorResp "Alphafold execution failed." (some env.subprocOutput)),
         [Effect.invokedSubprocess])
      else
        let outputs := collect_outputs env
        if env.preserveJobOutput != "1" then
          (Except.ok (Response.success jobOutputDir outputParent outputs),
           [Effect.invokedSubprocess, Effect.removedJobOutputDir])
        else
          (Except.ok (Response.success jobOutputDir outputParent outputs),
           [Effect.invokedSubprocess])

/-- Model of handler: read the input object of the event, dispatch on a
truthy action field, otherwise run the compute branch inside the scoped
working directory.  The working and job output directory names created by
tempfile are supplied as oracles. -/
def handler (env : Env) (fs : FS) (event : Option InputPayload)
    (workingDir jobOutputDir : String) : Except PyError Response × List Effect :=
  let payload := event.getD emptyPayload
  if truthyStr payload.action then
    handle_action env payload ((payload.action).getD "")
  else
    handle_compute env fs payload workingDir jobOutputDir

/-- The two materialization stages of the compute branch in sequence, as the
handler runs them. -/
def materializeAndPrepare (fs : FS) (payload : InputPayload) (workingDir : String) :
    Except PyError String :=
  match materialize_uploaded_inputs payload workingDir with
  | Except.error e => Except.error e
  | Except.ok payload2 => prepare_fasta_inputs fs payload2 workingDir

theorem handler_not_action (env : Env) (fs : FS) (p : InputPayload) (wd jod : String)
    (hact : truthyStr p.action = false) :
    handler env fs (some p) wd jod = handle_compute env fs p wd jod := by
  simp [handler, hact]

/-- Empty output tree fixture. -/
def tree0 : OutputTree := { rootName := "job", subdirs := [], rootFiles := [] }

/-- Baseline environment fixture for concrete evaluations. -/
def env0 : Env :=
  { returnArchive := "1"
    archivePatterns := none
    preserveJobOutput := "0"
    alphafoldOutputRoot := "/outputs"
    alphafoldDbPath := "/data/alphafold"
    dbAutoPreset := none
    subprocExit := 0
    subprocOutput := ""
    outputTree := tree0
    spawnPid := 4242
    dbSnapshot := "db"
    stopSnapshot := "stopped"
    lockHeld := false }

/-- File system fixture with nothing on disk. -/
def fs0 : FS :=
  { isFile := fun _ => false
    isDir := fun _ => false
    listDir := fun _ => []
    fetch := fun _ => none }

/-- Request fixture asking for one raw sequence. -/
def pSeq : InputPayload := { emptyPayload with sequence := some "MKT" }

/-- Environment fixtures for a failing computation, differing only in the
subprocess exit code. -/
def envE1 : Env := { env0 with subprocExit := 1, subprocOutput := "boom" }

/-- Second failing environment with a different exit code. -/
def envE2 : Env := { env0 with subprocExit := 2, subprocOutput := "boom" }

/-- Counterexample to claim C2 as stated: on a request with no input field at
all, the handler raises the ValueError from _prepare_fasta_inputs instead of
returning a result with status error; nothing is returned to the caller by
the handler itself. -/
theorem C2_handler_raises_on_missing_input :
    (handler env0 fs0 (some emptyPayload) "/work" "/outputs/job-1").1
      = Except.error (PyError.valueError
          "Input must include one of sequence, sequence_list, fasta_path, fasta_paths, fasta_dir, or fasta_url.") := by
  rfl

/-- Claim C2 amended: a classification or materialization failure makes the
handler raise the typed exception (propagated to the serving framework)
rather than return a status error result, and the computation subprocess is
never invoked for that request (the effect list stays empty). -/
theorem C2_pipeline_error_aborts_before_subprocess (env : Env) (fs : FS)
    (p : InputPayload) (wd jod : String) (e : PyError)
    (hact : truthyStr p.action = false)
    (herr : materializeAndPrepare fs p wd = Except.error e) :
    handler env fs (some p) wd jod = (Except.error e, []) ∧
    Effect.invokedSubprocess ∉ (handler env fs (some p) wd jod).2 := by
  have hmain : handle_compute env fs p wd jod = (Except.error e, []) := by
    unfold materializeAndPrepare at herr
    cases hm : materialize_uploaded_inputs p wd with
    | error e1 =>
      rw [hm] at herr
      simp only [Except.error.injEq] at herr
      subst herr
      simp [handle_compute, hm]
    | ok p2 =>
      rw [hm] at herr
      change prepare_fasta_inputs fs p2 wd = Except.error e at herr
      simp [handle_compute, hm, herr]
  rw [handler_not_action env fs p wd jod hact, hmain]
  exact ⟨rfl, by simp⟩

/-- Request fixture pointing at one non-existent FASTA file. -/
def pMissing : InputPayload := { emptyPayload with fasta_path := some "/x/nope.fasta" }

/-- Witness for the amended claim C2 at a request whose fasta_path does not
exist. -/
theorem C2_pipeline_error_aborts_witness :
    handler env0 fs0 (some pMissing) "/work" "/outputs/job-1"
      = (Except.error (PyError.fileNotFoundError "FASTA path not found: /x/nope.fasta"), []) ∧
    Effect.invokedSubprocess ∉ (handler env0 fs0 (some pMissing) "/work" "/outputs/job-1").2 :=
  C2_pipeline_error_aborts_before_subprocess env0 fs0 pMissing "/work" "/outputs/job-1"
    (PyError.fileNotFoundError "FASTA path not found: /x/nope.fasta") rfl rfl

/-- Counterexample to claim C3 as stated: two runs that differ only in the
subprocess exit code produce identical handler results, so the returned
error result cannot carry the exit code; it carries only the fixed message
and the captured output. -/
theorem C3_exit_code_not_reported :
    envE1.subprocExit ≠ envE2.subprocExit ∧
    handler envE1 fs0 (some pSeq) "/work" "/outputs/job-1"
      = handler envE2 fs0 (some pSeq) "/work" "/outputs/job-1" ∧
    handler envE1 fs0 (some pSeq) "/work" "/outputs/job-1"
      = (Except.ok (Response.errorResp "Alphafold execution failed." (some "boom")),
         [Effect.invokedSubprocess]) :=
  ⟨by decide, rfl, rfl⟩

/-- Claim C3 amended: on a non-zero subprocess exit the handler returns (does
not throw) a structured error result carrying the captured combined output;
the exit code itself is not part of the result. -/
theorem C3_failure_reported_with_output (env : Env) (fs : FS) (p : InputPayload)
    (wd jod fi : String)
    (hact : truthyStr p.action = false)
    (hok : materializeAndPrepare fs p wd = Except.ok fi)
    (hexit : env.subprocExit ≠ 0) :
    handler env fs (some p) wd jod
      = (Except.ok (Response.errorResp "Alphafold execution failed." (some env.subprocOutput)),
         [Effect.invokedSubprocess]) := by
  rw [handler_not_action env fs p wd jod hact]
  unfold materializeAndPrepare at hok
  cases hm : materialize_uploaded_inputs p wd with
  | error e1 =>
    rw [hm] at hok
    simp at hok
  | ok p2 =>
    rw [hm] at hok
    change prepare_fasta_inputs fs p2 wd = Except.ok fi at hok
    simp [handle_compute, hm, hok, hexit]

/-- Witness for the amended claim C3 at a concrete failing run. -/
theorem C3_failure_reported_witness :
    handler envE2 fs0 (some pSeq) "/work" "/outputs/job-1"
      = (Except.ok (Response.errorResp "Alphafold execution failed." (some "boom")),
         [Effect.invokedSubprocess]) :=
  C3_failure_reported_with_output envE2 fs0 pSeq "/work" "/outputs/job-1"
    "/work/input.fasta" rfl rfl (by decide)

/-- Claim C4: with a non-empty fasta_paths list containing missing files, the
materialization fails with a FileNotFoundError whose message joins all
missing paths (every missing path is in the collected list), and the handler
aborts with no effects, so the subprocess is never invoked. -/
theorem C4_all_missing_paths_reported (env : Env) (fs : FS) (p : InputPayload)
    (wd jod : String) (paths : List String)
    (hact : truthyStr p.action = false)
    (harc : p.input_archive = none)
    (hfp : p.fasta_path = none)
    (hps : p.fasta_paths = some paths)
    (hne : paths ≠ [])
    (hmiss : paths.filter (fun q => !(fs.isFile q)) ≠ []) :
    prepare_fasta_inputs fs p wd
      = Except.error (PyError.fileNotFoundError
          ("FASTA paths not found: "
            ++ String.intercalate ", " (paths.filter (fun q => !(fs.isFile q))))) ∧
    (∀ q, q ∈ paths → fs.isFile q = false →
      q ∈ paths.filter (fun q2 => !(fs.isFile q2))) ∧
    handler env fs (some p) wd jod
      = (Except.error (PyError.fileNotFoundError
          ("FASTA paths not found: "
            ++ String.intercalate ", " (paths.filter (fun q => !(fs.isFile q))))), []) := by
  have hprep : prepare_fasta_inputs fs p wd
      = Except.error (PyError.fileNotFoundError
          ("FASTA paths not found: "
            ++ String.intercalate ", " (paths.filter (fun q => !(fs.isFile q))))) := by
    unfold prepare_fasta_inputs
    rw [hfp, hps]
    dsimp only
    rw [if_neg hne, if_neg hmiss]
  refine ⟨hprep, ?_, ?_⟩
  · intro q hq hnf
    rw [List.mem_filter]
    exact ⟨hq, by simp [hnf]⟩
  · have hmat : materialize_uploaded_inputs p wd = Except.ok p := by
      unfold materialize_uploaded_inputs
      rw [harc]
    rw [handler_not_action env fs p wd jod hact]
    unfold handle_compute
    rw [hmat]
    dsimp only
    rw [hprep]

/-- File system fixture for the C4 witness: exactly one file exists. -/
def fsC4 : FS :=
  { isFile := fun s => s == "/x/a.fasta"
    isDir := fun _ => false
    listDir := fun _ => []
    fetch := fun _ => none }

/-- Request fixture listing one existing and one missing FASTA path. -/
def pC4 : InputPayload :=
  { emptyPayload with fasta_paths := some ["/x/a.fasta", "/x/missing.fasta"] }

/-- Witness for claim C4: the missing path is named in the raised message and
the handler produces no effects. -/
theorem C4_all_missing_paths_reported_witness :
    handler env0 fsC4 (some pC4) "/work" "/outputs/job-1"
      = (Except.error (PyError.fileNotFoundError
          "FASTA paths not found: /x/missing.fasta"), []) ∧
    "/x/missing.fasta" ∈
      (["/x/a.fasta", "/x/missing.fasta"].filter (fun q2 => !(fsC4.isFile q2))) := by
  have h := C4_all_missing_paths_reported env0 fsC4 pC4 "/work" "/outputs/job-1"
    ["/x/a.fasta", "/x/missing.fasta"] rfl rfl rfl rfl (by decide) (by decide)
  exact ⟨h.2.2, h.2.1 "/x/missing.fasta" (by decide) (by decide)⟩

theorem selected_fold_no_match (pattern : String) (files : List (List (List Char)))
    (acc : List (List (List Char)))
    (hnm : ∀ f ∈ files, globMatch pattern f = false) :
    files.foldl (fun acc2 f =>
      if globMatch pattern f && !(acc2.contains f) then acc2 ++ [f] else acc2) acc = acc := by
  induction files generalizing acc with
  | nil => rfl
  | cons f fs ih =>
    have h1 : globMatch pattern f = false := hnm f (by simp)
    rw [List.foldl_cons, if_neg (by simp [h1])]
    exact ih acc (fun g hg => hnm g (by simp [hg]))

theorem selected_outer_no_match (files : List (List (List Char)))
    (patterns : List String)
    (h : ∀ pattern ∈ patterns, ∀ f ∈ files, globMatch pattern f = false) :
    patterns.foldl (fun acc pattern =>
      files.foldl (fun acc2 f =>
        if globMatch pattern f && !(acc2.contains f) then acc2 ++ [f] else acc2) acc) [] = [] := by
  induction patterns with
  | nil => rfl
  | cons pt pts ih =>
    rw [List.foldl_cons,
      selected_fold_no_match pt files [] (fun f hf => h pt (by simp) f hf)]
    exact ih (fun pattern hp f hf => h pattern (by simp [hp]) f hf)

theorem archive_selected_some_nonempty (patterns : List String)
    (files content : List (List (List Char)))
    (h : archive_selected_outputs patterns files = some content) : content ≠ [] := by
  unfold archive_selected_outputs at h
  dsimp only at h
  split at h
  · exact absurd h (by simp)
  · next hne =>
    simp only [Option.some.injEq] at h
    subst h
    exact hne

theorem prepare_archives_fold_inv (patterns : List String)
    (candidates : List (String × List OutFile)) :
    ∀ acc : List ArchiveEntry, (∀ x ∈ acc, x.base64 ≠ []) →
    ∀ e ∈ candidates.foldl (fun acc cand =>
      match archive_selected_outputs patterns (cand.2.map OutFile.path) with
      | some content => acc ++ [{ name := cand.1 ++ ".tar.gz", base64 := content }]
      | none => acc) acc, e.base64 ≠ [] := by
  induction candidates with
  | nil =>
    intro acc hacc e he
    exact hacc e he
  | cons c cs ih =>
    intro acc hacc e he
    rw [List.foldl_cons] at he
    cases hs : archive_selected_outputs patterns (c.2.map OutFile.path) with
    | none =>
      rw [hs] at he
      exact ih acc hacc e he
    | some content =>
      rw [hs] at he
      refine ih _ ?_ e he
      intro x hx
      rcases List.mem_append.mp hx with h1 | h2
      · exact hacc x h1
      · simp only [List.mem_singleton] at h2
        subst h2
        exact archive_selected_some_nonempty patterns (c.2.map OutFile.path) content hs

/-- Claim C5: every manifest entry produced by the output packager was built
from at least one pattern match (its payload is non-empty), and a scanned
directory whose files yield zero matches produces no manifest entry at all
(the selection returns none). -/
theorem C5_no_empty_manifest_entries (patterns : List String) (tree : OutputTree) :
    (∀ e ∈ prepare_archives patterns tree, e.base64 ≠ []) ∧
    (∀ files : List (List (List Char)),
      (∀ f ∈ files, (patterns.any (fun pattern => globMatch pattern f)) = false) →
      archive_selected_outputs patterns files = none) := by
  constructor
  · intro e he
    unfold prepare_archives at he
    exact prepare_archives_fold_inv patterns _ [] (by simp) e he
  · intro files hf
    have hall : ∀ pattern ∈ patterns, ∀ f ∈ files, globMatch pattern f = false := by
      intro pattern hp f hfile
      have hh := hf f hfile
      rw [List.any_eq_false] at hh
      simpa using hh pattern hp
    unfold archive_selected_outputs
    rw [selected_outer_no_match files patterns hall]
    rfl

/-- Output tree fixture with one matching subdirectory. -/
def treeC5 : OutputTree :=
  { rootName := "job"
    subdirs := [("model_1", [{ path := ["ranked_0.pdb".data], size := 10 }])]
    rootFiles := [] }

/-- Witness for claim C5: the concrete manifest entry of a matching
subdirectory is non-empty, and a file list with no match yields none. -/
theorem C5_no_empty_manifest_entries_witness :
    ({ name := "model_1.tar.gz", base64 := [["ranked_0.pdb".data]] } : ArchiveEntry).base64 ≠ [] ∧
    archive_selected_outputs DEFAULT_ARCHIVE_PATTERNS [["nomatch.txt".data]] = none :=
  ⟨(C5_no_empty_manifest_entries DEFAULT_ARCHIVE_PATTERNS treeC5).1
      { name := "model_1.tar.gz", base64 := [["ranked_0.pdb".data]] } (by decide),
   (C5_no_empty_manifest_entries DEFAULT_ARCHIVE_PATTERNS treeC5).2
      [["nomatch.txt".data]] (by decide)⟩

/-- Claim C8: the singular archive_base64 field of the collected outputs is
present exactly when the archives manifest has exactly one entry, in which
case it equals that entry's payload; with zero or several archives it is
absent (and the plural archives key mirrors the manifest). -/
theorem C8_singular_archive_exactly_one (env : Env) :
    (∀ a, returned_archives env = [a] →
      (collect_outputs env).archive_base64 = some a.base64 ∧
      (collect_outputs env).archives = some [a]) ∧
    ((returned_archives env).length ≠ 1 →
      (collect_outputs env).archive_base64 = none) := by
  constructor
  · intro a ha
    constructor
    · unfold collect_outputs
      rw [ha]
    · unfold collect_outputs
      rw [ha]
      dsimp only
      rw [if_neg (by simp)]
  · intro hlen
    unfold collect_outputs
    cases hl : returned_archives env with
    | nil => rfl
    | cons a t =>
      cases t with
      | nil =>
        rw [hl] at hlen
        exact absurd rfl hlen
      | cons b t2 => rfl

/-- Environment fixture whose output tree yields exactly one archive. -/
def envC8one : Env := { env0 with outputTree := treeC5 }

/-- Output tree fixture with two matching subdirectories. -/
def treeC8two : OutputTree :=
  { rootName := "job"
    subdirs := [("model_1", [{ path := ["ranked_0.pdb".data], size := 10 }]),
                ("model_2", [{ path := ["ranked_1.pdb".data], size := 11 }])]
    rootFiles := [] }

/-- Environment fixture whose output tree yields two archives. -/
def envC8two : Env := { env0 with outputTree := treeC8two }

/-- Witness for claim C8: with one archive the singular field carries its
payload, with two archives it is absent. -/
theorem C8_singular_archive_exactly_one_witness :
    ((collect_outputs envC8one).archive_base64 = some [["ranked_0.pdb".data]] ∧
      (collect_outputs envC8one).archives
        = some [{ name := "model_1.tar.gz", base64 := [["ranked_0.pdb".data]] }]) ∧
    (collect_outputs envC8two).archive_base64 = none :=
  ⟨(C8_singular_archive_exactly_one envC8one).1
      { name := "model_1.tar.gz", base64 := [["ranked_0.pdb".data]] } (by decide),
   (C8_singular_archive_exactly_one envC8two).2 (by decide)⟩

/-- Claim C9: when the computation subprocess fails, the handler returns the
error result with the subprocess invocation as its only effect, so the job
output directory is not removed; on the success path the removal effect
occurs exactly when the preservation flag is unset. -/
theorem C9_job_output_removed_only_on_success (env : Env) (fs : FS) (p : InputPayload)
    (wd jod fi : String)
    (hact : truthyStr p.action = false)
    (hok : materializeAndPrepare fs p wd = Except.ok fi) :
    (env.subprocExit ≠ 0 →
      handler env fs (some p) wd jod
        = (Except.ok (Response.errorResp "Alphafold execution failed." (some env.subprocOutput)),
           [Effect.invokedSubprocess])) ∧
    (env.subprocExit = 0 →
      (Effect.removedJobOutputDir ∈ (handler env fs (some p) wd jod).2
        ↔ env.preserveJobOutput ≠ "1")) := by
  rw [handler_not_action env fs p wd jod hact]
  unfold materializeAndPrepare at hok
  cases hm : materialize_uploaded_inputs p wd with
  | error e1 =>
    rw [hm] at hok
    simp at hok
  | ok p2 =>
    rw [hm] at hok
    change prepare_fasta_inputs fs p2 wd = Except.ok fi at hok
    constructor
    · intro hexit
      simp [handle_compute, hm, hok, hexit]
    · intro hzero
      by_cases hp : env.preserveJobOutput = "1"
      · simp [handle_compute, hm, hok, hzero, hp]
      · simp [handle_compute, hm, hok, hzero, hp]

/-- Witness for claim C9: a failing run keeps the job output directory, a
succeeding run with preservation unset removes it. -/
theorem C9_job_output_removed_only_on_success_witness :
    handler envE1 fs0 (some pSeq) "/work" "/outputs/job-1"
      = (Except.ok (Response.errorResp "Alphafold execution failed." (some "boom")),
         [Effect.invokedSubprocess]) ∧
    (Effect.removedJobOutputDir ∈ (handler env0 fs0 (some pSeq) "/work" "/outputs/job-1").2
      ↔ env0.preserveJobOutput ≠ "1") :=
  ⟨(C9_job_output_removed_only_on_success envE1 fs0 pSeq "/work" "/outputs/job-1"
      "/work/input.fasta" rfl rfl).1 (by decide),
   (C9_job_output_removed_only_on_success env0 fs0 pSeq "/work" "/outputs/job-1"
      "/work/input.fasta" rfl rfl).2 rfl⟩

theorem handler_preload_started (env : Env) (fs : FS) (p : InputPayload)
    (wd jod : String) (hk : p.action = some "preload") :
    handler env fs (some p) wd jod
      = (Except.ok (Response.started "preload" (preload_preset env p) env.spawnPid
          (preload_log env p) env.dbSnapshot),
         [Effect.spawnedBackground env.spawnPid]) := by
  have h1 : truthyStr p.action = true := by rw [hk]; rfl
  unfold handler
  dsimp only [Option.getD_some]
  rw [h1, if_pos rfl, hk]
  unfold handle_action
  dsimp only [Option.getD_some]
  rw [if_neg (by decide), if_neg (by decide), if_pos (by decide)]

/-- Claim C10: a preload request always yields status started with the fresh
background pid and the log path, and the handler result does not depend on
whether the bootstrap lock is already held (the lock state is never read). -/
theorem C10_preload_always_started (env : Env) (fs : FS) (p : InputPayload)
    (wd jod : String) (hk : p.action = some "preload") :
    handler env fs (some p) wd jod
      = (Except.ok (Response.started "preload" (preload_preset env p) env.spawnPid
          (preload_log env p) env.dbSnapshot),
         [Effect.spawnedBackground env.spawnPid]) ∧
    handler { env with lockHeld := true } fs (some p) wd jod
      = handler { env with lockHeld := false } fs (some p) wd jod := by
  refine ⟨handler_preload_started env fs p wd jod hk, ?_⟩
  rw [handler_preload_started { env with lockHeld := true } fs p wd jod hk,
    handler_preload_started { env with lockHeld := false } fs p wd jod hk]
  rfl

/-- Preload request fixture with an explicit preset. -/
def pPreload : InputPayload :=
  { emptyPayload with action := some "preload", preset := some "full_dbs" }

/-- Witness for claim C10 with the lock already held: the response is still
started, with the spawned pid and the derived log path. -/
theorem C10_preload_always_started_witness :
    handler { env0 with lockHeld := true } fs0 (some pPreload) "/work" "/outputs/job-1"
      = (Except.ok (Response.started "preload" "full_dbs" 4242
          "/data/alphafold/bootstrap_full_dbs.log" "db"),
         [Effect.spawnedBackground 4242]) ∧
    handler { env0 with lockHeld := true } fs0 (some pPreload) "/work" "/outputs/job-1"
      = handler { env0 with lockHeld := false } fs0 (some pPreload) "/work" "/outputs/job-1" :=
  ⟨((C10_preload_always_started { env0 with lockHeld := true } fs0 pPreload
      "/work" "/outputs/job-1" rfl).1).trans rfl,
   (C10_preload_always_started env0 fs0 pPreload "/work" "/outputs/job-1" rfl).2⟩

/-- Boolean success test on Except values. -/
def isOkE {ε α : Type} : Except ε α → Bool
  | Except.ok _ => true
  | Except.error _ => false

/-- Upload fixture with two FASTA files of equal base name in different
subdirectories, and a declared name matching neither. -/
def uploadC7 : Upload :=
  { kind := some "fasta_paths"
    base64 := B64.valid [{ name := "a/x.fasta", isFile := true },
                         { name := "b/x.fasta", isFile := true }]
    root := none
    file_names := some ["y.fasta"] }

/-- Request fixture carrying the duplicate base name upload. -/
def pC7 : InputPayload := { emptyPayload with input_archive := some uploadC7 }

/-- Counterexample to claim C7 as stated: materialization rewrites
fasta_paths to a list missing one of the found files, because the name-keyed
dict keeps one path per base name; the spec ordering over all found files
lists both. -/
theorem C7_materialize_drops_duplicate_basename :
    materialize_uploaded_inputs pC7 "/w"
      = Except.ok { pC7 with
          fasta_paths := some ["/w/uploaded_inputs/b/x.fasta"]
          input_archive := none } ∧
    spec_declared_first_order
        (uploaded_fasta_files
          [{ name := "a/x.fasta", isFile := true }, { name := "b/x.fasta", isFile := true }]
          "/w/uploaded_inputs")
        ["y.fasta"]
      = ["/w/uploaded_inputs/a/x.fasta", "/w/uploaded_inputs/b/x.fasta"] ∧
    (["/w/uploaded_inputs/b/x.fasta"] : List String)
      ≠ ["/w/uploaded_inputs/a/x.fasta", "/w/uploaded_inputs/b/x.fasta"] :=
  ⟨rfl, rfl, by decide⟩

/-- Claim C7 amended: for an uploaded fasta_paths archive whose found FASTA
files have pairwise distinct base names, materialization rewrites fasta_paths
to the declared-first ordering over all found files: files named in
file_names first, in that order, then the remaining found files in sorted
order, and the archive field is cleared.  (Duplicated base names collapse in
the name-keyed dict, which the counterexample exhibits.) -/
theorem C7_fasta_paths_rewrite_spec_order (p : InputPayload) (u : Upload)
    (entries : List TarEntry) (wd : String)
    (h1 : p.input_archive = some u)
    (h2 : u.base64 = B64.valid entries)
    (h3 : u.kind = some "fasta_paths")
    (hsafe : isOkE (safe_extract_tar_bytes (entries.map TarEntry.name)
      (wd ++ "/uploaded_inputs")) = true)
    (hne : uploaded_fasta_files entries (wd ++ "/uploaded_inputs") ≠ [])
    (hnd : ((uploaded_fasta_files entries (wd ++ "/uploaded_inputs")).map pathName).Nodup) :
    materialize_uploaded_inputs p wd
      = Except.ok { p with
          fasta_paths := some (spec_declared_first_order
            (uploaded_fasta_files entries (wd ++ "/uploaded_inputs"))
            ((u.file_names).getD []))
          input_archive := none } := by
  unfold materialize_uploaded_inputs
  rw [h1]
  dsimp only
  rw [h2]
  dsimp only
  cases hs : safe_extract_tar_bytes (entries.map TarEntry.name) (wd ++ "/uploaded_inputs") with
  | error e =>
    rw [hs] at hsafe
    simp [isOkE] at hsafe
  | ok written =>
    dsimp only
    rw [h3]
    dsimp only
    rw [if_neg (by decide), if_pos rfl, if_neg hne]
    rw [C7_order_matches_spec_on_distinct_names _ _ hnd]

/-- Upload fixture with distinct base names and one declared name. -/
def uploadC7w : Upload :=
  { kind := some "fasta_paths"
    base64 := B64.valid [{ name := "a.fasta", isFile := true },
                         { name := "b.fasta", isFile := true }]
    root := none
    file_names := some ["b.fasta"] }

/-- Request fixture carrying the distinct base name upload. -/
def pC7w : InputPayload := { emptyPayload with input_archive := some uploadC7w }

/-- Witness for the amended claim C7: the declared file leads, the remaining
file follows in sorted order, and the archive field is cleared. -/
theorem C7_fasta_paths_rewrite_spec_order_witness :
    materialize_uploaded_inputs pC7w "/w"
      = Except.ok { pC7w with
          fasta_paths := some ["/w/uploaded_inputs/b.fasta", "/w/uploaded_inputs/a.fasta"]
          input_archive := none } :=
  (C7_fasta_paths_rewrite_spec_order pC7w uploadC7w
      [{ name := "a.fasta", isFile := true }, { name := "b.fasta", isFile := true }]
      "/w" rfl rfl rfl rfl (by decide) (by decide)).trans (by rfl)

end AlphafoldHandler
